import Mathlib

/-!
Verification development for a key-value data-access layer over a document
database (the quickmongo `Database` class and its `Util` helpers).  The
repository ships only the type declarations (`src/dist/index.d.ts`); the
behaviour of every operation is therefore modelled from the specification's
own words, as noted on each definition.  Timestamps are integers, document
payloads are a JSON-like tagged value, and the backing collection is a list
of records keyed by `ID`.
-/

namespace QuickMongo

mutual
/-- Modelled from the spec: the JSON-like logical value stored in a record's
`data` field — "JSON-like scalars, ordered sequences, or nested mappings"
(§4.3).  Numbers are modelled as integers; ordered sequences and field lists
are their own mutual list types so that equality of values is structurally
decidable. -/
inductive Value where
  | null : Value
  | bool : Bool → Value
  | num : Int → Value
  | str : String → Value
  | arr : ValueList → Value
  | obj : FieldList → Value
  deriving DecidableEq

/-- An ordered sequence of values (a JSON array). -/
inductive ValueList where
  | nil : ValueList
  | cons : Value → ValueList → ValueList
  deriving DecidableEq

/-- The fields of a nested mapping (a JSON object), in order. -/
inductive FieldList where
  | nil : FieldList
  | cons : String → Value → FieldList → FieldList
  deriving DecidableEq
end

instance {ε α : Type} [DecidableEq ε] [DecidableEq α] :
    DecidableEq (Except ε α) := fun a b =>
  match a, b with
  | Except.error e, Except.error f =>
    if h : e = f then isTrue (by rw [h]) else
      isFalse (fun c => by cases c; exact h rfl)
  | Except.ok x, Except.ok y =>
    if h : x = y then isTrue (by rw [h]) else
      isFalse (fun c => by cases c; exact h rfl)
  | Except.error _, Except.ok _ => isFalse (fun c => by cases c)
  | Except.ok _, Except.error _ => isFalse (fun c => by cases c)

/-- Build an ordered sequence from a Lean list. -/
def ValueList.ofList : List Value → ValueList
  | [] => ValueList.nil
  | v :: rest => ValueList.cons v (ValueList.ofList rest)

/-- Build a field list from a Lean list of bindings. -/
def FieldList.ofList : List (String × Value) → FieldList
  | [] => FieldList.nil
  | (k, v) :: rest => FieldList.cons k v (FieldList.ofList rest)

/-- Concatenation of ordered sequences. -/
def ValueList.append : ValueList → ValueList → ValueList
  | ValueList.nil, ys => ys
  | ValueList.cons x xs, ys => ValueList.cons x (ValueList.append xs ys)

/-- Whether an ordered sequence holds an element equal to `v`. -/
def ValueList.holds : ValueList → Value → Bool
  | ValueList.nil, _ => false
  | ValueList.cons x xs, v => decide (x = v) || ValueList.holds xs v

/-- Modelled from the spec: the stored record
`{ID, data, createdAt, updatedAt, expireAt}` (§3, §6, and the
`CollectionInterface` declaration in `src/dist/index.d.ts`). -/
structure Record where
  ID : String
  data : Value
  createdAt : Int
  updatedAt : Int
  expireAt : Option Int
  deriving DecidableEq

/-- A collection: the set of records a `Database` instance is bound to. -/
abbrev Store := List Record

/-- Modelled from the spec: the error taxonomy of §7 that the core itself
raises (`BackendError` and `NotReadyError` belong to the out-of-scope
collaborator). -/
inductive DBError where
  | invalidKey : DBError
  | typeMismatch : DBError
  deriving DecidableEq

/-- Key metadata as returned by `Util.getKeyMetadata`: the master key and the
nested path (`child`) inside the record's data. -/
structure KeyMetadata where
  master : String
  child : List String
  deriving DecidableEq

/-- Split a character list on `'.'`, mirroring splitting a string on the dot
separator (every dot starts a new segment; no dot merging). -/
def splitDots : List Char → List (List Char)
  | [] => [[]]
  | c :: rest =>
    match splitDots rest with
    | [] => [[]]
    | s :: ss => if c = '.' then [] :: s :: ss else (c :: s) :: ss

/-- The dot-separated segments of a key string. -/
def keyParts (key : String) : List String :=
  (splitDots key.data).map fun cs => String.mk cs

namespace Util

/-- Modelled from the spec: `Util.getKeyMetadata` splits a dotted key into the
master key (first segment) and the nested path (remaining segments), and
"fails with `InvalidKeyError` if `key` is empty or `master` is empty" (§4.1). -/
def getKeyMetadata (key : String) : Except DBError KeyMetadata :=
  match keyParts key with
  | [] => Except.error DBError.invalidKey
  | master :: child =>
    if master = "" then Except.error DBError.invalidKey
    else Except.ok ⟨master, child⟩

/-- Modelled from the spec: `Util.getKey` returns the master key of a dotted
key (`src/dist/index.d.ts` line 296). -/
def getKey (key : String) : Except DBError String :=
  match getKeyMetadata key with
  | Except.error e => Except.error e
  | Except.ok meta => Except.ok meta.master

/-- Look a field up in a nested mapping (first binding wins). -/
def getField : FieldList → String → Option Value
  | FieldList.nil, _ => none
  | FieldList.cons k v rest, p => if k = p then some v else getField rest p

/-- Replace the binding of a field in a nested mapping, appending the field
when absent and leaving every sibling untouched. -/
def setField : FieldList → String → Value → FieldList
  | FieldList.nil, p, v => FieldList.cons p v FieldList.nil
  | FieldList.cons k w rest, p, v =>
    if k = p then FieldList.cons p v rest
    else FieldList.cons k w (setField rest p v)

/-- Modelled from the spec: `Util.pick` reads a value at a nested dot path —
"if `path` is empty, returns `record.data` in full; otherwise walks `path`
through `record.data`'s nested structure (treating intermediate absence as
value absent, never an error)" (§4.3 `extract`). -/
def pick : Value → List String → Option Value
  | v, [] => some v
  | Value.obj fields, p :: rest =>
    match getField fields p with
    | some v => pick v rest
    | none => none
  | _, _ :: _ => none

/-- Modelled from the spec: writing a value at a nested dot path — "if `path`
empty, replaces `record.data` wholesale with `value`; otherwise materializes
any missing intermediate containers along `path` (creating empty nested
containers as needed) and sets the leaf to `value`, leaving sibling data
untouched" (§4.3 `inject`). -/
def inject : Value → List String → Value → Value
  | _, [], v => v
  | data, p :: rest, v =>
    let fields := match data with
      | Value.obj fs => fs
      | _ => FieldList.nil
    let sub := (getField fields p).getD (Value.obj FieldList.nil)
    Value.obj (setField fields p (inject sub rest v))

/-- Delete the binding of a field from a nested mapping, reporting whether a
binding was removed and leaving every sibling untouched. -/
def removeField : FieldList → String → FieldList × Bool
  | FieldList.nil, _ => (FieldList.nil, false)
  | FieldList.cons k v rest, p =>
    if k = p then (rest, true)
    else
      let (rest', removed) := removeField rest p
      (FieldList.cons k v rest', removed)

/-- Modelled from the spec: removing the leaf at a (non-empty) nested dot
path — "deletes the leaf at `path` if present, returns whether anything was
removed, leaves siblings intact" (§4.3 `remove`; the empty path means
"remove whole record" and is handled by the caller). -/
def removeAt : Value → List String → Value × Bool
  | data, [] => (data, false)
  | Value.obj fields, [p] =>
    let (fields', removed) := removeField fields p
    (Value.obj fields', removed)
  | Value.obj fields, p :: rest =>
    match getField fields p with
    | some v =>
      let (v', removed) := removeAt v rest
      (Value.obj (setField fields p v'), removed)
    | none => (Value.obj fields, false)
  | data, _ :: _ => (data, false)

/-- Modelled from the spec: `Util.shouldExpire` — a duration yields an
expiration stamp exactly when it is positive ("absent if `ttlSeconds` is
absent or `<= 0`", §4.2; the absent default is the sentinel `-1`). -/
def shouldExpire (dur : Int) : Bool :=
  decide (0 < dur)

/-- Modelled from the spec: `Util.createDuration` — the expiration stamp
`now + ttlSeconds` (§4.2 `stampFor`). -/
def createDuration (now dur : Int) : Int :=
  now + dur

/-- Modelled from the spec: `stampFor` returns no stamp for a non-positive
duration and `now + ttlSeconds` otherwise (§4.2). -/
def stampFor (now dur : Int) : Option Int :=
  if shouldExpire dur then some (createDuration now dur) else none

end Util

/-- Modelled from the spec: `isExpired` is "true iff `record.expireAt` is
present and `record.expireAt <= now()`" (§4.2). -/
def isExpired (r : Record) (now : Int) : Bool :=
  match r.expireAt with
  | some t => decide (t ≤ now)
  | none => false

/-- The backend's `findOne`: the record of the collection with the given id,
if any (§6). -/
def findOne : Store → String → Option Record
  | [], _ => none
  | r :: rest, id => if r.ID = id then some r else findOne rest id

/-- The backend's `upsert`: replace the record with the same id in place, or
append it ("a write with an existing `id` replaces/merges in place, never
duplicates", §3). -/
def upsert : Store → Record → Store
  | [], r => [r]
  | r' :: rest, r => if r'.ID = r.ID then r :: rest else r' :: upsert rest r

/-- The backend's `deleteOne`: remove the record with the given id, and
report whether something was deleted (§6). -/
def deleteOne : Store → String → Store × Bool
  | [], _ => ([], false)
  | r :: rest, id =>
    if r.ID = id then (rest, true)
    else
      let (rest', removed) := deleteOne rest id
      (r :: rest', removed)

namespace Database

/-- Modelled from the spec: `Database.get` — "fetch master record; if absent
or expired (per ExpirationPolicy, using one `now()` for the call) → return
absent. Otherwise `extract` at `path`; return value" (§4.4). -/
def get (store : Store) (now : Int) (key : String) :
    Except DBError (Option Value) :=
  match Util.getKeyMetadata key with
  | Except.error e => Except.error e
  | Except.ok meta =>
    match findOne store meta.master with
    | none => Except.ok none
    | some r =>
      if isExpired r now then Except.ok none
      else Except.ok (Util.pick r.data meta.child)

/-- Modelled from the spec: `Database.fetch` is an alias of `get` (§6). -/
def fetch (store : Store) (now : Int) (key : String) :
    Except DBError (Option Value) :=
  get store now key

/-- Modelled from the spec: `Database.has` — "like `get` but returns a
boolean — false for absent, expired, or a value that is nullish; true
otherwise" (§4.4). -/
def has (store : Store) (now : Int) (key : String) : Except DBError Bool :=
  match get store now key with
  | Except.error e => Except.error e
  | Except.ok none => Except.ok false
  | Except.ok (some Value.null) => Except.ok false
  | Except.ok (some _) => Except.ok true

/-- Modelled from the spec: `Database.set` — fetch-or-create the master
record (an expired record is treated as nonexistent and replaced fresh),
`inject` the value at `path`, stamp `expireAt` via the ExpirationPolicy
(non-positive ttl clears it), refresh `updatedAt`, keep `createdAt`, persist
the upsert, and return the full updated master value (§4.4).  The result
pairs that value with the updated collection. -/
def setRecord (store : Store) (now : Int) (meta : KeyMetadata)
    (value : Value) (ttl : Int) : Record :=
  let base : Record :=
    match findOne store meta.master with
    | some r =>
      if isExpired r now then
        ⟨meta.master, Value.obj FieldList.nil, now, now, none⟩
      else r
    | none => ⟨meta.master, Value.obj FieldList.nil, now, now, none⟩
  ⟨meta.master, Util.inject base.data meta.child value,
    base.createdAt, now, Util.stampFor now ttl⟩

/-- Modelled from the spec (continued): `set` resolves the key, builds the
updated record via `setRecord`, persists the upsert, and returns the full
updated master value paired with the updated collection. -/
def set (store : Store) (now : Int) (key : String) (value : Value)
    (ttl : Int) : Except DBError (Value × Store) :=
  match Util.getKeyMetadata key with
  | Except.error e => Except.error e
  | Except.ok meta =>
    let updated : Record := setRecord store now meta value ttl
    Except.ok (updated.data, upsert store updated)

/-- Modelled from the spec: `Database.delete` — "if `path` empty → delete
whole record, return true if one existed (deleting an already-expired record
still returns true ...; deleting a record that never existed returns false).
If `path` non-empty → `remove` the leaf (keep empty master records).
Returns whether a removal occurred" (§4.4); `updatedAt` is refreshed on
every mutating operation (§3). -/
def delete (store : Store) (now : Int) (key : String) :
    Except DBError (Bool × Store) :=
  match Util.getKeyMetadata key with
  | Except.error e => Except.error e
  | Except.ok meta =>
    match meta.child with
    | [] =>
      let (store', removed) := deleteOne store meta.master
      Except.ok (removed, store')
    | _ :: _ =>
      match findOne store meta.master with
      | none => Except.ok (false, store)
      | some r =>
        let (data', removed) := Util.removeAt r.data meta.child
        Except.ok (removed,
          upsert store ⟨r.ID, data', r.createdAt, now, r.expireAt⟩)

/-- Modelled from the spec: `Database.push` — the current value at the key
(absent treated as an empty ordered sequence; a non-sequence wrapped as a
single-element one) with `value` appended (a sequence `value` is appended
element by element — flatten-one-level), written back via `set` semantics;
returns the full updated master value (§4.4). -/
def push (store : Store) (now : Int) (key : String) (value : Value) :
    Except DBError (Value × Store) :=
  match get store now key with
  | Except.error e => Except.error e
  | Except.ok cur =>
    let current : ValueList :=
      match cur with
      | none => ValueList.nil
      | some (Value.arr xs) => xs
      | some v => ValueList.cons v ValueList.nil
    let appended : ValueList :=
      match value with
      | Value.arr ys => current.append ys
      | v => current.append (ValueList.cons v ValueList.nil)
    set store now key (Value.arr appended) (-1)

/-- Remove the first element equal to `x` from an ordered sequence. -/
def removeFirst (x : Value) : ValueList → ValueList
  | ValueList.nil => ValueList.nil
  | ValueList.cons y ys =>
    if y = x then ys else ValueList.cons y (removeFirst x ys)

/-- Remove, for each target value in turn, the first element equal to it. -/
def removeFirstEach : ValueList → ValueList → ValueList
  | ValueList.nil, xs => xs
  | ValueList.cons t ts, xs => removeFirstEach ts (removeFirst t xs)

/-- Remove every element equal to any target value. -/
def removeAll (targets : ValueList) : ValueList → ValueList
  | ValueList.nil => ValueList.nil
  | ValueList.cons x xs =>
    if targets.holds x then removeAll targets xs
    else ValueList.cons x (removeAll targets xs)

/-- Modelled from the spec: `Database.pull` — "reads current value at `k`;
fails (returns `false`) if absent or not an ordered sequence. Removes
matching elements: if `value` is an ordered sequence, removes every element
equal to any member of it; otherwise removes elements equal to `value`. If
`multiple` is false, removes at most the first match per target value; if
true, removes all matches. Writes back the filtered sequence. Returns the
full updated master value, or `false` on failure" (§4.4).  The sentinel
`false` is modelled as `none`, paired with the unchanged collection. -/
def pull (store : Store) (now : Int) (key : String) (value : Value)
    (multiple : Bool) : Except DBError (Option Value × Store) :=
  match get store now key with
  | Except.error e => Except.error e
  | Except.ok (some (Value.arr xs)) =>
    let targets : ValueList :=
      match value with
      | Value.arr ys => ys
      | v => ValueList.cons v ValueList.nil
    let remaining : ValueList :=
      if multiple then removeAll targets xs else removeFirstEach targets xs
    match set store now key (Value.arr remaining) (-1) with
    | Except.error e => Except.error e
    | Except.ok (v, store') => Except.ok (some v, store')
  | Except.ok _ => Except.ok (none, store)

/-- Modelled from the spec: `Database.add` — "reads current value at `k`
(absent treated as `0`); fails with `TypeMismatchError` if the existing value
is present but not numeric, or if `value` is not numeric. Computes
`current + value`; writes back. Returns the full updated master value"
(§4.4). -/
def add (store : Store) (now : Int) (key : String) (value : Value) :
    Except DBError (Value × Store) :=
  match get store now key with
  | Except.error e => Except.error e
  | Except.ok cur =>
    match value with
    | Value.num n =>
      match cur with
      | none => set store now key (Value.num (0 + n)) (-1)
      | some (Value.num c) => set store now key (Value.num (c + n)) (-1)
      | some _ => Except.error DBError.typeMismatch
    | _ => Except.error DBError.typeMismatch

/-- Modelled from the spec: `Database.subtract` — like `add` with
`current - value` (§4.4). -/
def subtract (store : Store) (now : Int) (key : String) (value : Value) :
    Except DBError (Value × Store) :=
  match get store now key with
  | Except.error e => Except.error e
  | Except.ok cur =>
    match value with
    | Value.num n =>
      match cur with
      | none => set store now key (Value.num (0 - n)) (-1)
      | some (Value.num c) => set store now key (Value.num (c - n)) (-1)
      | some _ => Except.error DBError.typeMismatch
    | _ => Except.error DBError.typeMismatch

end Database

/-- One `{ID, data}` item of `Database.all`'s result (the `AllData` typedef
in `src/dist/index.d.ts`). -/
structure AllData where
  ID : String
  data : Value
  deriving DecidableEq

/-- The `AllQueryOptions` typedef of `src/dist/index.d.ts`: retrieval limit
(`0` for no limit), the dotted field to sort by, and the filter predicate
`(data, index) => boolean`. -/
structure AllQueryOptions where
  limit : Nat
  sort : Option String
  filter : Option (AllData → Nat → Bool)

/-- Modelled from the spec: the ascending order used by `options.sort`.  The
spec fixes the comparison only through its numeric example (§8); this total
preorder puts numbers first, ordered by value, and ties every other pair, so
sorting is ascending on numeric sort fields and stability settles the rest. -/
def Value.leB : Value → Value → Bool
  | Value.num a, Value.num b => decide (a ≤ b)
  | Value.num _, _ => true
  | _, Value.num _ => false
  | _, _ => true

/-- Modelled from the spec: the sort key of an item is the value found at the
dotted sort field of its data; an item whose sort field is absent goes after
every item that has one. -/
def sortKeyLe (a b : Option Value) : Bool :=
  match a, b with
  | some x, some y => Value.leB x y
  | some _, none => true
  | none, some _ => false
  | none, none => true

/-- Stable insertion into a sorted list: the new element goes before the
first element it compares ≤ to, so earlier elements win ties. -/
def insertLe {α : Type} (le : α → α → Bool) (x : α) : List α → List α
  | [] => [x]
  | y :: ys => if le x y then x :: y :: ys else y :: insertLe le x ys

/-- Stable insertion sort by a boolean total preorder. -/
def sortLe {α : Type} (le : α → α → Bool) : List α → List α
  | [] => []
  | x :: xs => insertLe le x (sortLe le xs)

/-- Filter with the element's position — "index assigned after expiration
filtering, in retrieval order" (§4.4). -/
def filterIdx (f : AllData → Nat → Bool) : List AllData → Nat → List AllData
  | [], _ => []
  | d :: ds, i =>
    if f d i then d :: filterIdx f ds (i + 1) else filterIdx f ds (i + 1)

namespace Database

/-- The non-expired records of the collection, as `{ID, data}` items in
retrieval order ("fetch every non-expired record", §4.4). -/
def visible (store : Store) (now : Int) : List AllData :=
  (store.filter fun r => ¬ isExpired r now).map fun r => ⟨r.ID, r.data⟩

/-- Apply `options.filter(data, index)` if given, the index assigned after
expiration filtering in retrieval order (§4.4). -/
def applyFilter (options : AllQueryOptions) (items : List AllData) :
    List AllData :=
  match options.filter with
  | none => items
  | some f => filterIdx f items 0

/-- Apply `options.sort` if given: look the dotted sort field up on each
item's data and order ascending, stable for ties (§4.4). -/
def applySort (options : AllQueryOptions) (items : List AllData) :
    List AllData :=
  match options.sort with
  | none => items
  | some field =>
    sortLe (fun a b =>
      sortKeyLe (Util.pick a.data (keyParts field))
        (Util.pick b.data (keyParts field))) items

/-- Modelled from the spec: `Database.all` — "fetch every non-expired record;
apply `options.filter(data, index)` if given (index assigned after expiration
filtering, in retrieval order); apply `options.sort` by looking up that
dotted field on each item's data and ordering ascending, stable for ties;
apply `options.limit` (0 or absent = no limit) truncating after sort. Returns
ordered sequence of `{ID, data}`" (§4.4). -/
def all (store : Store) (now : Int) (options : AllQueryOptions) :
    List AllData :=
  let sorted := applySort options (applyFilter options (visible store now))
  if options.limit = 0 then sorted else sorted.take options.limit

end Database

/-- A store handle as the HierarchyManager sees it: which backend connection
the store talks through and which collection it is bound to. -/
structure StoreHandle where
  connectionId : Nat
  collectionName : String
  deriving DecidableEq

/-- Modelled from the spec: the default collection name, `"JSON"`
(`QuickMongoOptions` in `src/dist/index.d.ts` and §4.5). -/
def defaultCollectionName : String := "JSON"

/-- Modelled from the spec: the default collection name of a child that
shares its parent's connection; the spec fixes only that it "differs from
parent's to avoid collision" (§4.5), and the prefixed name renders that. -/
def sharedChildDefaultCollectionName : String := "CHILD_JSON"

namespace Database

/-- Modelled from the spec: `instantiateChild` — "if `url` is provided, or
`shareConnectionFromParent` is falsy, opens a brand-new backend connection
scoped to `collectionName` (default `"JSON"` if omitted) ...  If no `url` and
sharing is requested, the child reuses the parent's already-open connection
handle but binds to a distinct collection name (default differs from
parent's to avoid collision)" (§4.5).  `freshConnection` stands for the
handle a brand-new connection would get. -/
def instantiateChild (parent : StoreHandle) (shareConnectionFromParent : Bool)
    (freshConnection : Nat) (collection : Option String)
    (url : Option String) : StoreHandle :=
  if url.isSome ∨ ¬ shareConnectionFromParent then
    ⟨freshConnection, collection.getD defaultCollectionName⟩
  else
    ⟨parent.connectionId, collection.getD sharedChildDefaultCollectionName⟩

end Database

/-! Helper lemmas about the key resolver, the codec and the backend. -/

theorem Util.getField_setField_self : (fs : FieldList) → (p : String) →
    (v : Value) → Util.getField (Util.setField fs p v) p = some v
  | FieldList.nil, p, v => by simp [Util.setField, Util.getField]
  | FieldList.cons k w rest, p, v => by
    by_cases h : k = p <;>
      simp [Util.setField, Util.getField, h,
        Util.getField_setField_self rest p v]

theorem Util.pick_inject (path : List String) (d v : Value) :
    Util.pick (Util.inject d path v) path = some v := by
  induction path generalizing d with
  | nil => simp [Util.inject, Util.pick]
  | cons p rest ih =>
    simp [Util.inject, Util.pick, Util.getField_setField_self, ih]

theorem findOne_upsert_self : (store : Store) → (r : Record) →
    findOne (upsert store r) r.ID = some r
  | [], r => by simp [upsert, findOne]
  | r' :: rest, r => by
    by_cases h : r'.ID = r.ID <;>
      simp [upsert, findOne, h, findOne_upsert_self rest r]

theorem Util.getKeyMetadata_invalid (key : String)
    (h : (keyParts key).headD "" = "") :
    Util.getKeyMetadata key = Except.error DBError.invalidKey := by
  cases hp : keyParts key with
  | nil => simp [Util.getKeyMetadata, hp]
  | cons m c =>
    rw [hp] at h
    simp only [List.headD_cons] at h
    simp [Util.getKeyMetadata, hp, h]

theorem Util.getKeyMetadata_parts (key : String) (meta : KeyMetadata)
    (h : Util.getKeyMetadata key = Except.ok meta) :
    keyParts key = meta.master :: meta.child := by
  cases hp : keyParts key with
  | nil => rw [Util.getKeyMetadata, hp] at h; cases h
  | cons m c =>
    rw [Util.getKeyMetadata, hp] at h
    by_cases hm : m = ""
    · simp [hm] at h
    · simp only [hm, if_false] at h
      cases h
      rfl

theorem Util.stampFor_clear (now : Int) : Util.stampFor now (-1) = none := by
  simp [Util.stampFor, Util.shouldExpire]

theorem Database.setRecord_ID (store : Store) (now : Int)
    (meta : KeyMetadata) (value : Value) (ttl : Int) :
    (Database.setRecord store now meta value ttl).ID = meta.master := rfl

theorem Database.setRecord_expireAt (store : Store) (now : Int)
    (meta : KeyMetadata) (value : Value) :
    (Database.setRecord store now meta value (-1)).expireAt = none :=
  Util.stampFor_clear now

theorem Database.pick_setRecord (store : Store) (now : Int)
    (meta : KeyMetadata) (value : Value) (ttl : Int) :
    Util.pick (Database.setRecord store now meta value ttl).data meta.child
      = some value :=
  Util.pick_inject meta.child _ value

theorem mem_insertLe {α : Type} (le : α → α → Bool) (x y : α) :
    ∀ (l : List α), y ∈ insertLe le x l → y = x ∨ y ∈ l := by
  intro l
  induction l with
  | nil => simp [insertLe]
  | cons z zs ih =>
    by_cases h : le x z <;> simp only [insertLe, h] <;> intro h1
    · simpa using h1
    · rcases List.mem_cons.mp h1 with h2 | h2
      · simp [h2]
      · rcases ih h2 with h3 | h3 <;> simp [h3]

theorem mem_sortLe {α : Type} (le : α → α → Bool) (y : α) :
    ∀ (l : List α), y ∈ sortLe le l → y ∈ l := by
  intro l
  induction l with
  | nil => simp [sortLe]
  | cons x xs ih =>
    intro h
    rcases mem_insertLe le x y _ h with h1 | h1
    · simp [h1]
    · simp [ih h1]

theorem mem_filterIdx (f : AllData → Nat → Bool) (y : AllData) :
    ∀ (l : List AllData) (i : Nat), y ∈ filterIdx f l i → y ∈ l := by
  intro l
  induction l with
  | nil => intro i h; simp [filterIdx] at h
  | cons d ds ih =>
    intro i h
    rw [filterIdx] at h
    by_cases hf : f d i
    · rw [if_pos hf] at h
      rcases List.mem_cons.mp h with h1 | h1
      · simp [h1]
      · simp [ih _ h1]
    · rw [if_neg hf] at h
      simp [ih _ h]

theorem Database.mem_applyFilter (options : AllQueryOptions) (y : AllData)
    (l : List AllData) (h : y ∈ Database.applyFilter options l) : y ∈ l := by
  rw [Database.applyFilter] at h
  cases hf : options.filter with
  | none => rw [hf] at h; exact h
  | some f => rw [hf] at h; exact mem_filterIdx f y l 0 h

theorem Database.mem_applySort (options : AllQueryOptions) (y : AllData)
    (l : List AllData) (h : y ∈ Database.applySort options l) : y ∈ l := by
  rw [Database.applySort] at h
  cases hs : options.sort with
  | none => rw [hs] at h; exact h
  | some field => rw [hs] at h; exact mem_sortLe _ y l h

theorem Database.mem_visible (store : Store) (now : Int) (d : AllData)
    (h : d ∈ Database.visible store now) :
    ∃ r ∈ store, isExpired r now = false ∧ r.ID = d.ID ∧ r.data = d.data := by
  rw [Database.visible] at h
  rcases List.mem_map.mp h with ⟨r, hr, hd⟩
  rcases List.mem_filter.mp hr with ⟨hmem, hexp⟩
  refine ⟨r, hmem, ?_, ?_, ?_⟩
  · simpa using hexp
  · rw [← hd]
  · rw [← hd]

/-! The claims. -/

/-- C1: for every record whose `expireAt` is present and in the past
relative to the single `now()` sampled for the call, every read treats the
record as absent even though it still physically exists: `get` returns
absent and `has` returns `false` for any key resolving to that record. -/
theorem C1_expired_record_reads_absent (store : Store) (now : Int)
    (key : String) (meta : KeyMetadata) (r : Record)
    (hk : Util.getKeyMetadata key = Except.ok meta)
    (hr : findOne store meta.master = some r)
    (hexp : isExpired r now = true) :
    Database.get store now key = Except.ok none ∧
    Database.has store now key = Except.ok false := by
  have hget : Database.get store now key = Except.ok none := by
    simp only [Database.get, hk, hr, hexp, if_true]
  exact ⟨hget, by simp only [Database.has, hget]⟩

/-- C1 witness: a physically present record with `expireAt = 1` read at
`now = 2` is absent for `get` and `has`. -/
theorem C1_expired_record_reads_absent_witness :
    Database.get [⟨"k", Value.num 5, 0, 0, some 1⟩] 2 "k" = Except.ok none ∧
    Database.has [⟨"k", Value.num 5, 0, 0, some 1⟩] 2 "k" =
      Except.ok false :=
  C1_expired_record_reads_absent [⟨"k", Value.num 5, 0, 0, some 1⟩] 2 "k"
    ⟨"k", []⟩ ⟨"k", Value.num 5, 0, 0, some 1⟩
    (by decide) (by decide) (by decide)

/-- C2: for every valid key `k` and every value `v`, `set(k, v)` (default
ttl, no expiration) followed by `get(k)` with no intervening operation
returns a value deep-equal to `v` — here literally equal, at any later
`now`. -/
theorem C2_set_then_get_returns_value (store : Store) (now now2 : Int)
    (key : String) (value : Value) (meta : KeyMetadata) (v : Value)
    (store' : Store)
    (hk : Util.getKeyMetadata key = Except.ok meta)
    (hset : Database.set store now key value (-1) = Except.ok (v, store')) :
    Database.get store' now2 key = Except.ok (some value) := by
  simp only [Database.set, hk, Except.ok.injEq, Prod.mk.injEq] at hset
  obtain ⟨-, hstore⟩ := hset
  subst hstore
  have hfind :=
    findOne_upsert_self store (Database.setRecord store now meta value (-1))
  rw [Database.setRecord_ID] at hfind
  have hexp :
      isExpired (Database.setRecord store now meta value (-1)) now2
        = false := by
    simp [isExpired, Database.setRecord_expireAt]
  simp [Database.get, hk, hfind, hexp, Database.pick_setRecord]

/-- C2 witness: `set "a.b" 7` on an empty collection then `get "a.b"`
returns `7`. -/
theorem C2_set_then_get_returns_value_witness :
    Database.get
      [⟨"a", Value.obj (FieldList.ofList [("b", Value.num 7)]), 0, 0, none⟩]
      5 "a.b" = Except.ok (some (Value.num 7)) :=
  C2_set_then_get_returns_value [] 0 5 "a.b" (Value.num 7) ⟨"a", ["b"]⟩
    (Value.obj (FieldList.ofList [("b", Value.num 7)]))
    [⟨"a", Value.obj (FieldList.ofList [("b", Value.num 7)]), 0, 0, none⟩]
    (by decide) (by decide)

/-- C3: the first dot-segment of a key is the master record id and the
remaining segments address a nested path inside the record's data, while a
bare key (empty path) addresses the entire data; in particular, after
`set "a.b" 1` on an empty collection, `get "a"` returns the object
`{b: 1}` and `get "a.b"` returns `1`. -/
theorem C3_dotted_key_addressing :
    (∀ (key : String) (meta : KeyMetadata),
        Util.getKeyMetadata key = Except.ok meta →
        keyParts key = meta.master :: meta.child) ∧
    (∀ (v : Value), Util.pick v [] = some v) ∧
    Database.set [] 0 "a.b" (Value.num 1) (-1) =
      Except.ok (Value.obj (FieldList.ofList [("b", Value.num 1)]),
        [⟨"a", Value.obj (FieldList.ofList [("b", Value.num 1)]),
          0, 0, none⟩]) ∧
    Database.get
        [⟨"a", Value.obj (FieldList.ofList [("b", Value.num 1)]),
          0, 0, none⟩] 0 "a" =
      Except.ok (some (Value.obj (FieldList.ofList [("b", Value.num 1)]))) ∧
    Database.get
        [⟨"a", Value.obj (FieldList.ofList [("b", Value.num 1)]),
          0, 0, none⟩] 0 "a.b" =
      Except.ok (some (Value.num 1)) :=
  ⟨Util.getKeyMetadata_parts, fun v => by simp [Util.pick],
    by decide, by decide, by decide⟩

/-- C4: `add`/`subtract` treat an absent current value as `0`, fail with
`TypeMismatchError` exactly when the existing value is present but not
numeric or the supplied value is not numeric, and otherwise write back
`current + value` (resp. `current - value`) through `set`, which returns the
full updated master value. -/
theorem C4_add_subtract_semantics :
    (∀ (store : Store) (now : Int) (key : String) (n : Int),
        Database.get store now key = Except.ok none →
        Database.add store now key (Value.num n) =
          Database.set store now key (Value.num n) (-1)) ∧
    (∀ (store : Store) (now : Int) (key : String) (c n : Int),
        Database.get store now key = Except.ok (some (Value.num c)) →
        Database.add store now key (Value.num n) =
          Database.set store now key (Value.num (c + n)) (-1)) ∧
    (∀ (store : Store) (now : Int) (key : String) (n : Int),
        Database.get store now key = Except.ok none →
        Database.subtract store now key (Value.num n) =
          Database.set store now key (Value.num (0 - n)) (-1)) ∧
    (∀ (store : Store) (now : Int) (key : String) (c n : Int),
        Database.get store now key = Except.ok (some (Value.num c)) →
        Database.subtract store now key (Value.num n) =
          Database.set store now key (Value.num (c - n)) (-1)) ∧
    (∀ (store : Store) (now : Int) (key : String) (w : Value) (n : Int),
        Database.get store now key = Except.ok (some w) →
        (∀ m : Int, w ≠ Value.num m) →
        Database.add store now key (Value.num n) =
            Except.error DBError.typeMismatch ∧
          Database.subtract store now key (Value.num n) =
            Except.error DBError.typeMismatch) ∧
    (∀ (store : Store) (now : Int) (key : String) (cur : Option Value)
        (w : Value),
        Database.get store now key = Except.ok cur →
        (∀ m : Int, w ≠ Value.num m) →
        Database.add store now key w = Except.error DBError.typeMismatch ∧
          Database.subtract store now key w =
            Except.error DBError.typeMismatch) ∧
    Database.add [] 0 "n" (Value.num 5) =
      Except.ok (Value.num 5, [⟨"n", Value.num 5, 0, 0, none⟩]) ∧
    Database.subtract [⟨"n", Value.num 5, 0, 0, none⟩] 1 "n"
        (Value.num 2) =
      Except.ok (Value.num 3, [⟨"n", Value.num 3, 0, 1, none⟩]) ∧
    Database.add [⟨"n", Value.num 3, 0, 1, none⟩] 2 "n" (Value.str "x") =
      Except.error DBError.typeMismatch := by
  refine ⟨?_, ?_, ?_, ?_, ?_, ?_, by decide, by decide, by decide⟩
  · intro store now key n h
    simp [Database.add, h]
  · intro store now key c n h
    simp [Database.add, h]
  · intro store now key n h
    simp [Database.subtract, h]
  · intro store now key c n h
    simp [Database.subtract, h]
  · intro store now key w n h hw
    cases w <;> first
      | exact absurd rfl (hw _)
      | exact ⟨by simp [Database.add, h], by simp [Database.subtract, h]⟩
  · intro store now key cur w h hw
    cases w <;> first
      | exact absurd rfl (hw _)
      | exact ⟨by simp [Database.add, h], by simp [Database.subtract, h]⟩

/-- C5: `push` treats an absent current value as an empty ordered sequence,
wraps a non-sequence current value as a single-element sequence, appends the
pushed value (flattening one level when the value is itself a sequence), and
writes back via `set`, which returns the full updated master value; in
particular `push "list" "a"` on an absent key yields `["a"]` and a
subsequent `push "list" "b"` yields `["a", "b"]`. -/
theorem C5_push_semantics :
    (∀ (store : Store) (now : Int) (key : String) (w : Value),
        Database.get store now key = Except.ok none →
        (∀ ys, w ≠ Value.arr ys) →
        Database.push store now key w =
          Database.set store now key
            (Value.arr (ValueList.cons w ValueList.nil)) (-1)) ∧
    (∀ (store : Store) (now : Int) (key : String) (ys : ValueList),
        Database.get store now key = Except.ok none →
        Database.push store now key (Value.arr ys) =
          Database.set store now key (Value.arr ys) (-1)) ∧
    (∀ (store : Store) (now : Int) (key : String) (w v : Value),
        Database.get store now key = Except.ok (some w) →
        (∀ ys, w ≠ Value.arr ys) → (∀ ys, v ≠ Value.arr ys) →
        Database.push store now key v =
          Database.set store now key
            (Value.arr (ValueList.cons w (ValueList.cons v ValueList.nil)))
            (-1)) ∧
    (∀ (store : Store) (now : Int) (key : String) (xs : ValueList)
        (v : Value),
        Database.get store now key = Except.ok (some (Value.arr xs)) →
        (∀ ys, v ≠ Value.arr ys) →
        Database.push store now key v =
          Database.set store now key
            (Value.arr (xs.append (ValueList.cons v ValueList.nil)))
            (-1)) ∧
    (∀ (store : Store) (now : Int) (key : String) (xs ys : ValueList),
        Database.get store now key = Except.ok (some (Value.arr xs)) →
        Database.push store now key (Value.arr ys) =
          Database.set store now key (Value.arr (xs.append ys)) (-1)) ∧
    (∀ (store : Store) (now : Int) (key : String) (w : Value)
        (ys : ValueList),
        Database.get store now key = Except.ok (some w) →
        (∀ zs, w ≠ Value.arr zs) →
        Database.push store now key (Value.arr ys) =
          Database.set store now key (Value.arr (ValueList.cons w ys))
            (-1)) ∧
    Database.push
        [⟨"l", Value.arr (ValueList.ofList [Value.str "a"]), 0, 0, none⟩]
        1 "l" (Value.arr (ValueList.ofList [Value.str "b", Value.str "c"])) =
      Except.ok
        (Value.arr (ValueList.ofList
          [Value.str "a", Value.str "b", Value.str "c"]),
        [⟨"l", Value.arr (ValueList.ofList
          [Value.str "a", Value.str "b", Value.str "c"]), 0, 1, none⟩]) ∧
    Database.push [⟨"s", Value.num 7, 0, 0, none⟩] 1 "s"
        (Value.arr (ValueList.ofList [Value.num 8, Value.num 9])) =
      Except.ok
        (Value.arr (ValueList.ofList [Value.num 7, Value.num 8, Value.num 9]),
        [⟨"s", Value.arr (ValueList.ofList
          [Value.num 7, Value.num 8, Value.num 9]), 0, 1, none⟩]) ∧
    Database.push [] 0 "list" (Value.str "a") =
      Except.ok (Value.arr (ValueList.ofList [Value.str "a"]),
        [⟨"list", Value.arr (ValueList.ofList [Value.str "a"]),
          0, 0, none⟩]) ∧
    Database.push
        [⟨"list", Value.arr (ValueList.ofList [Value.str "a"]),
          0, 0, none⟩] 1 "list" (Value.str "b") =
      Except.ok
        (Value.arr (ValueList.ofList [Value.str "a", Value.str "b"]),
        [⟨"list",
          Value.arr (ValueList.ofList [Value.str "a", Value.str "b"]),
          0, 1, none⟩]) := by
  refine ⟨?_, ?_, ?_, ?_, ?_, ?_, by decide, by decide, by decide, by decide⟩
  · intro store now key w h hw
    cases w <;> first
      | exact absurd rfl (hw _)
      | simp [Database.push, h, ValueList.append]
  · intro store now key ys h
    simp [Database.push, h, ValueList.append]
  · intro store now key w v h hw hv
    cases w <;> first
      | exact absurd rfl (hw _)
      | (cases v <;> first
          | exact absurd rfl (hv _)
          | simp [Database.push, h, ValueList.append])
  · intro store now key xs v h hv
    cases v <;> first
      | exact absurd rfl (hv _)
      | simp [Database.push, h]
  · intro store now key xs ys h
    simp [Database.push, h]
  · intro store now key w ys h hw
    cases w <;> first
      | exact absurd rfl (hw _)
      | simp [Database.push, h, ValueList.append]

/-- C6: `pull` returns the sentinel `false` (modelled as `none`), without
raising an error and leaving the collection unchanged, when the current
value is absent or not an ordered sequence; otherwise it removes elements
equal to the target value (or to any member of a sequence target) — the
first match per target value when `multiple` is false, all matches when it
is true — writes the filtered sequence back via `set`, and returns the full
updated master value. -/
theorem C6_pull_semantics :
    (∀ (store : Store) (now : Int) (key : String) (v : Value) (m : Bool),
        Database.get store now key = Except.ok none →
        Database.pull store now key v m = Except.ok (none, store)) ∧
    (∀ (store : Store) (now : Int) (key : String) (w v : Value) (m : Bool),
        Database.get store now key = Except.ok (some w) →
        (∀ xs, w ≠ Value.arr xs) →
        Database.pull store now key v m = Except.ok (none, store)) ∧
    (∀ (store : Store) (now : Int) (key : String) (xs : ValueList)
        (v val : Value) (store' : Store),
        Database.get store now key = Except.ok (some (Value.arr xs)) →
        (∀ ys, v ≠ Value.arr ys) →
        Database.set store now key
            (Value.arr (Database.removeFirst v xs)) (-1) =
          Except.ok (val, store') →
        Database.pull store now key v false =
          Except.ok (some val, store')) ∧
    (∀ (store : Store) (now : Int) (key : String) (xs ys : ValueList)
        (val : Value) (store' : Store),
        Database.get store now key = Except.ok (some (Value.arr xs)) →
        Database.set store now key
            (Value.arr (Database.removeAll ys xs)) (-1) =
          Except.ok (val, store') →
        Database.pull store now key (Value.arr ys) true =
          Except.ok (some val, store')) ∧
    (∀ (store : Store) (now : Int) (key : String) (xs ys : ValueList)
        (val : Value) (store' : Store),
        Database.get store now key = Except.ok (some (Value.arr xs)) →
        Database.set store now key
            (Value.arr (Database.removeFirstEach ys xs)) (-1) =
          Except.ok (val, store') →
        Database.pull store now key (Value.arr ys) false =
          Except.ok (some val, store')) ∧
    (∀ (store : Store) (now : Int) (key : String) (xs : ValueList)
        (v val : Value) (store' : Store),
        Database.get store now key = Except.ok (some (Value.arr xs)) →
        (∀ ys, v ≠ Value.arr ys) →
        Database.set store now key
            (Value.arr
              (Database.removeAll (ValueList.cons v ValueList.nil) xs))
            (-1) =
          Except.ok (val, store') →
        Database.pull store now key v true =
          Except.ok (some val, store')) ∧
    Database.pull
        [⟨"p",
          Value.arr (ValueList.ofList
            [Value.str "a", Value.str "b", Value.str "a", Value.str "c"]),
          0, 0, none⟩]
        3 "p" (Value.arr (ValueList.ofList [Value.str "a", Value.str "c"]))
        false =
      Except.ok
        (some (Value.arr (ValueList.ofList [Value.str "b", Value.str "a"])),
        [⟨"p", Value.arr (ValueList.ofList [Value.str "b", Value.str "a"]),
          0, 3, none⟩]) ∧
    Database.pull
        [⟨"p",
          Value.arr (ValueList.ofList
            [Value.str "a", Value.str "b", Value.str "a", Value.str "c"]),
          0, 0, none⟩]
        3 "p" (Value.arr (ValueList.ofList [Value.str "a", Value.str "c"]))
        true =
      Except.ok (some (Value.arr (ValueList.ofList [Value.str "b"])),
        [⟨"p", Value.arr (ValueList.ofList [Value.str "b"]),
          0, 3, none⟩]) ∧
    Database.pull
        [⟨"list",
          Value.arr (ValueList.ofList [Value.str "a", Value.str "b"]),
          0, 0, none⟩] 2 "list" (Value.str "a") false =
      Except.ok (some (Value.arr (ValueList.ofList [Value.str "b"])),
        [⟨"list", Value.arr (ValueList.ofList [Value.str "b"]),
          0, 2, none⟩]) ∧
    Database.pull
        [⟨"q",
          Value.arr (ValueList.ofList
            [Value.str "a", Value.str "a", Value.str "b"]), 0, 0, none⟩]
        1 "q" (Value.str "a") false =
      Except.ok
        (some (Value.arr (ValueList.ofList [Value.str "a", Value.str "b"])),
        [⟨"q", Value.arr (ValueList.ofList [Value.str "a", Value.str "b"]),
          0, 1, none⟩]) ∧
    Database.pull
        [⟨"q",
          Value.arr (ValueList.ofList
            [Value.str "a", Value.str "a", Value.str "b"]), 0, 0, none⟩]
        1 "q" (Value.str "a") true =
      Except.ok (some (Value.arr (ValueList.ofList [Value.str "b"])),
        [⟨"q", Value.arr (ValueList.ofList [Value.str "b"]),
          0, 1, none⟩]) := by
  refine ⟨?_, ?_, ?_, ?_, ?_, ?_, by decide, by decide, by decide,
    by decide, by decide⟩
  · intro store now key v m h
    simp [Database.pull, h]
  · intro store now key w v m h hw
    cases w <;> first
      | exact absurd rfl (hw _)
      | simp [Database.pull, h]
  · intro store now key xs v val store' h hv hset
    cases v <;> first
      | exact absurd rfl (hv _)
      | simp [Database.pull, h, Database.removeFirstEach, hset]
  · intro store now key xs ys val store' h hset
    simp [Database.pull, h, hset]
  · intro store now key xs ys val store' h hset
    simp [Database.pull, h, hset]
  · intro store now key xs v val store' h hv hset
    cases v <;> first
      | exact absurd rfl (hv _)
      | simp [Database.pull, h, hset]

/-- C7: `all` returns only non-expired records (the filter index is assigned
after expiration filtering in retrieval order, `sort` orders ascending by
the named dotted field with stability for ties, and `limit` truncates after
sorting, `0` meaning no limit — all encoded in the pipeline); in particular
`all {limit: 2, sort: "score"}` over records with scores `[3, 1, 2]` returns
the items with scores `[1, 2]` in that order. -/
theorem C7_all_semantics :
    (∀ (store : Store) (now : Int) (options : AllQueryOptions) (d : AllData),
        d ∈ Database.all store now options →
        ∃ r ∈ store, isExpired r now = false ∧ r.ID = d.ID ∧
          r.data = d.data) ∧
    (∀ (store : Store) (now : Int) (options : AllQueryOptions),
        options.limit = 0 →
        Database.all store now options =
          Database.applySort options
            (Database.applyFilter options (Database.visible store now))) ∧
    (∀ (store : Store) (now : Int) (options : AllQueryOptions),
        options.limit ≠ 0 →
        Database.all store now options =
          (Database.applySort options
            (Database.applyFilter options
              (Database.visible store now))).take options.limit) ∧
    Database.all
        [⟨"u", Value.obj (FieldList.ofList [("score", Value.num 3)]),
          0, 0, none⟩,
         ⟨"v", Value.obj (FieldList.ofList [("score", Value.num 1)]),
          0, 0, none⟩,
         ⟨"w", Value.obj (FieldList.ofList [("score", Value.num 2)]),
          0, 0, none⟩]
        0 ⟨2, some "score", none⟩ =
      [⟨"v", Value.obj (FieldList.ofList [("score", Value.num 1)])⟩,
       ⟨"w", Value.obj (FieldList.ofList [("score", Value.num 2)])⟩] := by
  refine ⟨?_, ?_, ?_, by decide⟩
  · intro store now options d hd
    rw [Database.all] at hd
    have hsorted : d ∈ Database.applySort options
        (Database.applyFilter options (Database.visible store now)) := by
      by_cases hl : options.limit = 0
      · simpa [hl] using hd
      · rw [if_neg hl] at hd
        exact List.take_subset _ _ hd
    exact Database.mem_visible store now d
      (Database.mem_applyFilter options d _
        (Database.mem_applySort options d _ hsorted))
  · intro store now options hl
    rw [Database.all, if_pos hl]
  · intro store now options hl
    rw [Database.all, if_neg hl]

/-- C8: for every key that is empty or whose first dot-segment (the master)
is empty, each public keyed operation fails with `InvalidKeyError`, before
anything is read from or written to the collection (the error result carries
no updated collection). -/
theorem C8_invalid_key_rejected (store : Store) (now : Int) (key : String)
    (value : Value) (ttl : Int) (m : Bool)
    (h : key = "" ∨ (keyParts key).headD "" = "") :
    Database.get store now key = Except.error DBError.invalidKey ∧
    Database.fetch store now key = Except.error DBError.invalidKey ∧
    Database.has store now key = Except.error DBError.invalidKey ∧
    Database.set store now key value ttl =
      Except.error DBError.invalidKey ∧
    Database.delete store now key = Except.error DBError.invalidKey ∧
    Database.push store now key value = Except.error DBError.invalidKey ∧
    Database.pull store now key value m = Except.error DBError.invalidKey ∧
    Database.add store now key value = Except.error DBError.invalidKey ∧
    Database.subtract store now key value =
      Except.error DBError.invalidKey := by
  have hmaster : (keyParts key).headD "" = "" := by
    rcases h with h | h
    · subst h; decide
    · exact h
  have hk := Util.getKeyMetadata_invalid key hmaster
  have hget : Database.get store now key = Except.error DBError.invalidKey :=
    by simp [Database.get, hk]
  exact ⟨hget, hget, by simp [Database.has, hget],
    by simp [Database.set, hk], by simp [Database.delete, hk],
    by simp [Database.push, hget], by simp [Database.pull, hget],
    by simp [Database.add, hget], by simp [Database.subtract, hget]⟩

/-- C8 witness: the key `"."` has an empty master; every keyed operation on
a one-record collection rejects it with `InvalidKeyError`. -/
theorem C8_invalid_key_rejected_witness :
    Database.get [⟨"k", Value.num 5, 0, 0, none⟩] 0 "." =
      Except.error DBError.invalidKey ∧
    Database.fetch [⟨"k", Value.num 5, 0, 0, none⟩] 0 "." =
      Except.error DBError.invalidKey ∧
    Database.has [⟨"k", Value.num 5, 0, 0, none⟩] 0 "." =
      Except.error DBError.invalidKey ∧
    Database.set [⟨"k", Value.num 5, 0, 0, none⟩] 0 "." (Value.num 1)
        (-1) = Except.error DBError.invalidKey ∧
    Database.delete [⟨"k", Value.num 5, 0, 0, none⟩] 0 "." =
      Except.error DBError.invalidKey ∧
    Database.push [⟨"k", Value.num 5, 0, 0, none⟩] 0 "." (Value.num 1) =
      Except.error DBError.invalidKey ∧
    Database.pull [⟨"k", Value.num 5, 0, 0, none⟩] 0 "." (Value.num 1)
        false = Except.error DBError.invalidKey ∧
    Database.add [⟨"k", Value.num 5, 0, 0, none⟩] 0 "." (Value.num 1) =
      Except.error DBError.invalidKey ∧
    Database.subtract [⟨"k", Value.num 5, 0, 0, none⟩] 0 "."
        (Value.num 1) = Except.error DBError.invalidKey :=
  C8_invalid_key_rejected [⟨"k", Value.num 5, 0, 0, none⟩] 0 "."
    (Value.num 1) (-1) false (Or.inr (by decide))

/-- C9: a child instantiated with no url on a store whose connection sharing
is requested reuses the parent's connection but binds to a collection name
distinct from the parent's: with the collection argument omitted, the
child's default collection name differs from the parent's default, so the
two cannot collide. -/
theorem C9_shared_child_distinct_collection (parent : StoreHandle)
    (freshConnection : Nat)
    (hp : parent.collectionName = defaultCollectionName) :
    (Database.instantiateChild parent true freshConnection none
        none).connectionId = parent.connectionId ∧
    (Database.instantiateChild parent true freshConnection none
        none).collectionName ≠ parent.collectionName ∧
    sharedChildDefaultCollectionName ≠ defaultCollectionName := by
  refine ⟨?_, ?_, by decide⟩
  · simp [Database.instantiateChild]
  · simp [Database.instantiateChild, hp, sharedChildDefaultCollectionName,
      defaultCollectionName]

/-- C9 witness: a parent on connection `0` with the default collection name
gets a shared child on connection `0` with a different collection name. -/
theorem C9_shared_child_distinct_collection_witness :
    (Database.instantiateChild ⟨0, "JSON"⟩ true 1 none
        none).connectionId = (⟨0, "JSON"⟩ : StoreHandle).connectionId ∧
    (Database.instantiateChild ⟨0, "JSON"⟩ true 1 none
        none).collectionName ≠ (⟨0, "JSON"⟩ : StoreHandle).collectionName ∧
    sharedChildDefaultCollectionName ≠ defaultCollectionName :=
  C9_shared_child_distinct_collection ⟨0, "JSON"⟩ 1 (by decide)

/-- C10: for every key and every numeric value, `subtract(k, v)` is the very
same computation as `add(k, -v)` — the same final state and the same
returned value, with errors included. -/
theorem C10_subtract_is_add_neg (store : Store) (now : Int) (key : String)
    (n : Int) :
    Database.subtract store now key (Value.num n) =
      Database.add store now key (Value.num (-n)) := by
  have hsub : ∀ c : Int, c - n = c + -n := fun c => by ring
  rw [Database.subtract, Database.add]
  cases hget : Database.get store now key with
  | error e => rfl
  | ok cur =>
    cases cur with
    | none => simp [hsub]
    | some w => cases w <;> simp [hsub]

end QuickMongo
